import Mathlib

/-!
Shallow embedding of the resilience pipeline of the repository
(RequestQueue, RateLimiter, RetryManager, TimeoutController, ApiWrapper)
and proofs of the spec's claims about it.
-/

namespace APIResilience

/-! ## Stable descending sort (models `Array.prototype.sort` with the
comparator `(a, b) => b.priority - a.priority`)

`Array.prototype.sort` is a stable sort (ES2019).  Any stable sort with
that comparator produces the same list, so we model it by the textbook
stable insertion sort: elements are processed in array order and each is
inserted after every already-placed element of greater-or-equal priority. -/

/-- Insert `x` into an (already descending-sorted) accumulator, after all
elements whose priority is `≥ x`'s: this is the placement a stable
descending sort gives the most recently pushed element. -/
def insertStableDesc (pri : α → Int) (x : α) : List α → List α
  | [] => [x]
  | h :: t => if pri x ≤ pri h then h :: insertStableDesc pri x t else x :: h :: t

/-- Stable sort by `pri` descending: model of
`queue.sort((a, b) => b.priority - a.priority)` (ES2019 stable sort). -/
def sortStableDesc (pri : α → Int) (l : List α) : List α :=
  l.foldl (fun acc x => insertStableDesc pri x acc) []

theorem mem_insertStableDesc (pri : α → Int) (x b : α) (l : List α) :
    b ∈ insertStableDesc pri x l ↔ b = x ∨ b ∈ l := by
  induction l with
  | nil => simp [insertStableDesc]
  | cons h t ih =>
    simp only [insertStableDesc]
    split
    · simp only [List.mem_cons, ih]
      tauto
    · simp only [List.mem_cons]

theorem insertStableDesc_of_all_ge (pri : α → Int) (x : α) (l : List α)
    (h : ∀ b ∈ l, pri x ≤ pri b) : insertStableDesc pri x l = l ++ [x] := by
  induction l with
  | nil => rfl
  | cons a t ih =>
    have ha : pri x ≤ pri a := h a (by simp)
    simp only [insertStableDesc, if_pos ha, List.cons_append, List.cons.injEq, true_and]
    exact ih fun b hb => h b (by simp [hb])

theorem sortStableDesc_sorted_id (pri : α → Int) (l : List α)
    (h : List.Pairwise (fun a b => pri b ≤ pri a) l) : sortStableDesc pri l = l := by
  suffices hgen : ∀ acc rest, List.Pairwise (fun a b => pri b ≤ pri a) (acc ++ rest) →
      rest.foldl (fun acc x => insertStableDesc pri x acc) acc = acc ++ rest by
    simpa using hgen [] l h
  intro acc rest
  induction rest generalizing acc with
  | nil => simp
  | cons x t ih =>
    intro hp
    have hins : insertStableDesc pri x acc = acc ++ [x] := by
      apply insertStableDesc_of_all_ge
      intro b hb
      have := (List.pairwise_append.1 hp).2.2 b hb x (by simp)
      exact this
    have hp2 : List.Pairwise (fun a b => pri b ≤ pri a) ((acc ++ [x]) ++ t) := by
      simpa [List.append_assoc] using hp
    simp only [List.foldl_cons, hins]
    simpa [List.append_assoc] using ih (acc ++ [x]) hp2

theorem sortStableDesc_append_singleton (pri : α → Int) (l : List α) (x : α) :
    sortStableDesc pri (l ++ [x]) = insertStableDesc pri x (sortStableDesc pri l) := by
  simp [sortStableDesc, List.foldl_append]

/-! ## RequestQueue (src/RequestQueue.js)

A queued request: we keep the two fields the ordering claims are about,
the priority passed to `enqueue` and an arrival sequence number standing
for the position of the `queue.push` (the code's `queuedAt`/insertion
order).  Every element of `this.queue` has `status === 'queued'`:
dispatched requests are spliced out before they run and `cancel` splices
out the request it cancels, so `findIndex(r => r.status === 'queued')`
is `0` whenever the queue is non-empty. -/
structure QReq where
  priority : Int
  seq : Nat
deriving DecidableEq, Repr

/-- `a` is dispatched before `b` when both are queued: strictly higher
priority, or equal priority and earlier arrival. -/
def dispatchBefore (a b : QReq) : Prop :=
  b.priority < a.priority ∨ (a.priority = b.priority ∧ a.seq < b.seq)

instance : DecidableRel dispatchBefore := fun a b => by
  unfold dispatchBefore; infer_instance

/-- State of a `RequestQueue` instance: the live queue, the `running`
counter, the concurrency cap from the constructor, the arrival counter,
and the `paused` flag set by `pause()`/`resume()`. -/
structure QState where
  maxConcurrent : Nat
  queue : List QReq
  running : Nat
  nextSeq : Nat
  paused : Bool
deriving DecidableEq, Repr

/-- `enqueue(fn, {priority})`: push the new request, then
`this.queue.sort((a, b) => b.priority - a.priority)` (stable). -/
def enqueueStep (s : QState) (p : Int) : QState :=
  { s with
    queue := sortStableDesc QReq.priority (s.queue ++ [⟨p, s.nextSeq⟩])
    nextSeq := s.nextSeq + 1 }

/-- The synchronous prefix of `process()`: return unchanged if
`running >= maxConcurrent` or the queue is empty, otherwise splice out
the first queued request (index 0) and increment `running` before
invoking it. -/
def processStep (s : QState) : QState :=
  if s.maxConcurrent ≤ s.running ∨ s.queue = [] then s
  else
    match s.queue with
    | [] => s
    | _h :: t => { s with queue := t, running := s.running + 1 }

/-- One interleaving-visible transition of a `RequestQueue`: an
`enqueue`, the synchronous part of a `process()` call, the settlement
of a running request (the `finally` block's `this.running--`),
a `cancel` of a queued request (splice at some index), `pause()` or
`resume()` (the `process()` call inside `resume` is a separate
`process` step). -/
inductive Step : QState → QState → Prop
  | enqueue (s : QState) (p : Int) : Step s (enqueueStep s p)
  | process (s : QState) : Step s (processStep s)
  | settle (s : QState) (h : 0 < s.running) : Step s { s with running := s.running - 1 }
  | cancel (s : QState) (i : Nat) : Step s { s with queue := s.queue.eraseIdx i }
  | pause (s : QState) : Step s { s with paused := true }
  | resume (s : QState) : Step s { s with paused := false }

/-- The constructor's state: empty queue, `running = 0`. -/
def initState (m : Nat) : QState :=
  { maxConcurrent := m, queue := [], running := 0, nextSeq := 0, paused := false }

/-- States reachable from a freshly constructed queue. -/
inductive Reachable : QState → Prop
  | init (m : Nat) : Reachable (initState m)
  | step {s t : QState} : Reachable s → Step s t → Reachable t

theorem Step.maxConcurrent_eq {s t : QState} (h : Step s t) :
    t.maxConcurrent = s.maxConcurrent := by
  cases h <;> first
    | rfl
    | simp [enqueueStep]
    | (unfold processStep
       split
       · rfl
       · split <;> rfl)

theorem Step.running_le {s t : QState} (h : Step s t)
    (hs : s.running ≤ s.maxConcurrent) : t.running ≤ t.maxConcurrent := by
  cases h with
  | enqueue p => simpa [enqueueStep] using hs
  | process =>
      unfold processStep
      split
      · exact hs
      · next hcond =>
          push_neg at hcond
          split
          · exact hs
          · simpa using hcond.1
  | settle h => simpa using Nat.le_trans (Nat.sub_le _ _) hs
  | cancel i => simpa using hs
  | pause => simpa using hs
  | resume => simpa using hs

theorem dispatchBefore_le {a b : QReq} (h : dispatchBefore a b) :
    b.priority ≤ a.priority := by
  rcases h with h1 | ⟨h1, _⟩
  · exact le_of_lt h1
  · exact le_of_eq h1.symm

theorem insertStableDesc_pairwise (x : QReq) (l : List QReq)
    (hseq : ∀ r ∈ l, r.seq < x.seq)
    (hp : List.Pairwise dispatchBefore l) :
    List.Pairwise dispatchBefore (insertStableDesc QReq.priority x l) := by
  induction l with
  | nil => simp [insertStableDesc]
  | cons h t ih =>
    rcases List.pairwise_cons.1 hp with ⟨hh, ht⟩
    simp only [insertStableDesc]
    split
    · next hle =>
        refine List.pairwise_cons.2 ⟨?_, ih (fun r hr => hseq r (by simp [hr])) ht⟩
        intro b hb
        rcases (mem_insertStableDesc _ _ _ _).1 hb with rfl | hbt
        · rcases lt_or_eq_of_le hle with hlt | heq
          · exact Or.inl hlt
          · exact Or.inr ⟨heq.symm, hseq h (by simp)⟩
        · exact hh b hbt
    · next hgt =>
        push_neg at hgt
        refine List.pairwise_cons.2 ⟨?_, hp⟩
        intro b hb
        rcases List.mem_cons.1 hb with rfl | hbt
        · exact Or.inl hgt
        · exact Or.inl (lt_of_le_of_lt (dispatchBefore_le (hh b hbt)) hgt)

/-- The queue invariant behind the ordering claims: the live queue is
strictly ordered by (priority desc, arrival asc) and every queued
request's sequence number is below the arrival counter. -/
def QInv (s : QState) : Prop :=
  List.Pairwise dispatchBefore s.queue ∧ ∀ r ∈ s.queue, r.seq < s.nextSeq

theorem Step.preservesQInv {s t : QState} (h : Step s t) (hs : QInv s) : QInv t := by
  rcases hs with ⟨hp, hseq⟩
  cases h with
  | enqueue p =>
      have hrw : (enqueueStep s p).queue
          = insertStableDesc QReq.priority ⟨p, s.nextSeq⟩ s.queue := by
        have h1 := sortStableDesc_append_singleton QReq.priority s.queue ⟨p, s.nextSeq⟩
        have h2 : sortStableDesc QReq.priority s.queue = s.queue :=
          sortStableDesc_sorted_id _ _ (hp.imp fun hab => dispatchBefore_le hab)
        simp [enqueueStep, h1, h2]
      constructor
      · rw [hrw]
        exact insertStableDesc_pairwise _ _ (fun r hr => hseq r hr) hp
      · intro r hr
        rw [hrw] at hr
        rcases (mem_insertStableDesc _ _ _ _).1 hr with rfl | hr2
        · simp [enqueueStep]
        · simp only [enqueueStep]
          exact Nat.lt_succ_of_lt (hseq r hr2)
  | process =>
      unfold processStep
      split
      · exact ⟨hp, hseq⟩
      · split
        · exact ⟨hp, hseq⟩
        · next heq =>
            constructor
            · simp only []
              rw [heq] at hp
              exact (List.pairwise_cons.1 hp).2
            · intro r hr
              apply hseq
              rw [heq]
              exact List.mem_cons_of_mem _ hr
  | settle hrun => exact ⟨hp, hseq⟩
  | cancel i =>
      constructor
      · exact hp.sublist (List.eraseIdx_sublist s.queue i)
      · intro r hr
        exact hseq r ((List.eraseIdx_sublist s.queue i).mem hr)
  | pause => exact ⟨hp, hseq⟩
  | resume => exact ⟨hp, hseq⟩

theorem Reachable.queueInv {s : QState} (hs : Reachable s) : QInv s := by
  induction hs with
  | init m => exact ⟨List.Pairwise.nil, by simp [initState]⟩
  | step hr hstep ih => exact hstep.preservesQInv ih

/-- C1: in every reachable state of a `RequestQueue`, the number of
requests in the running state never exceeds `maxConcurrent`:
`process()` dispatches only when `running < maxConcurrent`, increments
`running` before invoking the request, and the `finally` block
decrements it when the request settles. -/
theorem requestQueue_running_le_cap (s : QState) (hs : Reachable s) :
    s.running ≤ s.maxConcurrent := by
  induction hs with
  | init m => exact Nat.le_refl 0 |>.trans (Nat.zero_le m)
  | step hr hstep ih => exact hstep.running_le ih

/-- Witness for C1 at a concrete run: cap 1, two enqueues, one dispatch. -/
theorem requestQueue_running_le_cap_witness :
    (processStep (enqueueStep (enqueueStep (initState 1) 5) 3)).running = 1 ∧
    (processStep (enqueueStep (enqueueStep (initState 1) 5) 3)).running
      ≤ (processStep (enqueueStep (enqueueStep (initState 1) 5) 3)).maxConcurrent := by
  refine ⟨by decide, ?_⟩
  exact requestQueue_running_le_cap _
    (Reachable.step
      (Reachable.step
        (Reachable.step (Reachable.init 1) (Step.enqueue _ 5))
        (Step.enqueue _ 3))
      (Step.process _))

/-- C2: in every reachable state the live queue is strictly ordered by
priority (descending), ties broken by arrival order, and a dispatch
(when `running < maxConcurrent`) removes exactly the head of that
order — so of any two jobs both queued before either dispatches, the
higher-priority one dispatches first, and equal-priority jobs dispatch
in FIFO arrival order, at every dispatch decision. -/
theorem requestQueue_dispatch_order (s : QState) (hs : Reachable s) :
    List.Pairwise dispatchBefore s.queue ∧
    ∀ h t, s.queue = h :: t → s.running < s.maxConcurrent →
      (processStep s).queue = t ∧ (processStep s).running = s.running + 1 := by
  refine ⟨hs.queueInv.1, ?_⟩
  intro h t hq hrun
  unfold processStep
  rw [hq]
  have hcond : ¬ (s.maxConcurrent ≤ s.running ∨ h :: t = []) := by
    push_neg
    exact ⟨hrun, by simp⟩
  rw [if_neg hcond]
  exact ⟨rfl, rfl⟩

/-- Witness for C2: the spec's scenario — cap 2, priorities 5, 1, 5 in
that arrival order; the sorted queue is [(5,#0), (5,#2), (1,#1)] and the
first dispatch takes (5,#0). -/
theorem requestQueue_dispatch_order_witness :
    (enqueueStep (enqueueStep (enqueueStep (initState 2) 5) 1) 5).queue
      = [⟨5, 0⟩, ⟨5, 2⟩, ⟨1, 1⟩] ∧
    List.Pairwise dispatchBefore
      (enqueueStep (enqueueStep (enqueueStep (initState 2) 5) 1) 5).queue ∧
    (processStep (enqueueStep (enqueueStep (enqueueStep (initState 2) 5) 1) 5)).queue
      = [⟨5, 2⟩, ⟨1, 1⟩] := by
  have hreach : Reachable (enqueueStep (enqueueStep (enqueueStep (initState 2) 5) 1) 5) :=
    Reachable.step
      (Reachable.step
        (Reachable.step (Reachable.init 2) (Step.enqueue _ 5))
        (Step.enqueue _ 1))
      (Step.enqueue _ 5)
  have h2 := requestQueue_dispatch_order _ hreach
  refine ⟨by decide, h2.1, ?_⟩
  exact (h2.2 ⟨5, 0⟩ [⟨5, 2⟩, ⟨1, 1⟩] (by decide) (by decide)).1

/-- C10: `process()` never consults the `paused` flag — its guard reads
only `running`, `maxConcurrent` and the queue — so dispatch behaves
identically whatever `paused` is: whenever the queue is non-empty and
`running < maxConcurrent`, the head job is dispatched even between
`pause()` and `resume()`; `enqueue` is likewise unaffected. -/
theorem pause_has_no_effect_on_dispatch (s : QState) (b : Bool) :
    processStep { s with paused := b } = { processStep s with paused := b } ∧
    (∀ p, enqueueStep { s with paused := b } p = { enqueueStep s p with paused := b }) ∧
    (∀ h t, s.queue = h :: t → s.running < s.maxConcurrent →
      (processStep { s with paused := b }).queue = t ∧
      (processStep { s with paused := b }).running = s.running + 1) := by
  obtain ⟨m, q, r, n, pz⟩ := s
  refine ⟨?_, ?_, ?_⟩
  · unfold processStep
    dsimp only
    by_cases hc : m ≤ r ∨ q = []
    · rw [if_pos hc, if_pos hc]
    · rw [if_neg hc, if_neg hc]
      cases q with
      | nil => simp_all
      | cons a l => rfl
  · intro p
    simp [enqueueStep]
  · intro h t hq hrun
    dsimp only at hq hrun ⊢
    subst hq
    unfold processStep
    dsimp only
    have hcond : ¬ (m ≤ r ∨ h :: t = []) := by
      push_neg
      exact ⟨hrun, by simp⟩
    rw [if_neg hcond]
    exact ⟨rfl, rfl⟩

/-- Witness for C10: with cap 1 and one queued job, the dispatch fires
identically with `paused := true`. -/
theorem pause_has_no_effect_on_dispatch_witness :
    (processStep { enqueueStep (initState 1) 7 with paused := true }).queue = [] ∧
    (processStep { enqueueStep (initState 1) 7 with paused := true }).running = 1 :=
  (pause_has_no_effect_on_dispatch (enqueueStep (initState 1) 7) true).2.2
    ⟨7, 0⟩ [] (by decide) (by decide)

/-! ## RateLimiter (src/RateLimiter.js)

Time is an explicit `Int` (milliseconds, the code's `Date.now()`).  A
waiting throttle call is identified by an id and carries the priority
used by the queue sort. -/

structure RLItem where
  id : Nat
  priority : Int
deriving DecidableEq, Repr

structure RLState where
  maxRequests : Nat
  timeWindow : Int
  queue : List RLItem
  activeRequests : Int
  requestTimestamps : List Int
deriving DecidableEq, Repr

/-- `cleanOldTimestamps()`: keep timestamps strictly newer than
`now - timeWindow`. -/
def cleanOldTimestamps (now : Int) (s : RLState) : RLState :=
  { s with requestTimestamps :=
      s.requestTimestamps.filter fun ts => decide (now - s.timeWindow < ts) }

/-- `canMakeRequest()` after its internal `cleanOldTimestamps()` call:
fewer in-window tickets than `maxRequests`. -/
def canMakeRequest (now : Int) (s : RLState) : Bool :=
  decide ((cleanOldTimestamps now s).requestTimestamps.length < s.maxRequests)

/-- `recordRequest()`: push the current timestamp and bump
`activeRequests`. -/
def recordRequest (now : Int) (s : RLState) : RLState :=
  { s with requestTimestamps := s.requestTimestamps ++ [now]
           activeRequests := s.activeRequests + 1 }

/-- `throttle(fn, priority)` up to its first suspension: if
`canMakeRequest()` then admit (record a ticket and start `fn`), else
push onto the wait queue and re-sort it by priority (stable).  Returns
the new state and whether the call was admitted immediately. -/
def throttleStep (now : Int) (item : RLItem) (s : RLState) : RLState × Bool :=
  let s1 := cleanOldTimestamps now s
  if s1.requestTimestamps.length < s1.maxRequests then
    (recordRequest now s1, true)
  else
    ({ s1 with queue := sortStableDesc RLItem.priority (s1.queue ++ [item]) }, false)

/-- `processQueue()`: exit unless the wait queue is non-empty and
`canMakeRequest()`; otherwise shift the head of the wait queue, record
its ticket and start it.  Returns the new state and the admitted item,
if any.  (`canMakeRequest` is only evaluated — and only prunes — when
the queue is non-empty, mirroring the short-circuit `||`.) -/
def processQueueStep (now : Int) (s : RLState) : RLState × Option RLItem :=
  if s.queue = [] then (s, none)
  else
    let s1 := cleanOldTimestamps now s
    if s1.requestTimestamps.length < s1.maxRequests then
      match s1.queue with
      | [] => (s1, none)
      | h :: t => (recordRequest now { s1 with queue := t }, some h)
    else (s1, none)

/-- `completeRequest()`: decrement `activeRequests`, then
`processQueue()` — the only place the wait queue is ever drained. -/
def completeRequest (now : Int) (s : RLState) : RLState × Option RLItem :=
  processQueueStep now { s with activeRequests := s.activeRequests - 1 }

/-- A fresh `RateLimiter` with the given options. -/
def rlInit (maxRequests : Nat) (timeWindow : Int) : RLState :=
  { maxRequests := maxRequests, timeWindow := timeWindow
    queue := [], activeRequests := 0, requestTimestamps := [] }

/-- The state after `maxRequests = 2`, `timeWindow = 1000` and three
`throttle` calls at `t = 0`: two admitted, the third waiting. -/
def rlScenario : RLState :=
  (throttleStep 0 ⟨3, 0⟩
    (throttleStep 0 ⟨2, 0⟩ ((throttleStep 0 ⟨1, 0⟩ (rlInit 2 1000)).1)).1).1

/-- Counterexample to C3: with `maxRequests = 2`, `timeWindow = 1000`
and three `throttle` calls at `t = 0`, the first two are admitted and
the third queued; when one of the first two completes at `t = 500`,
`processQueue` finds both tickets still inside the window
(`canMakeRequest` consults only the ticket timestamps, not
`activeRequests`), so the third call is NOT admitted — refuting
"the third is admitted ... as soon as one of the first two completes".
Ticket age-out alone admits nothing either, because `processQueue` is
called only from `completeRequest`. -/
theorem rateLimiter_completion_does_not_free_capacity :
    (throttleStep 0 ⟨1, 0⟩ (rlInit 2 1000)).2 = true ∧
    (throttleStep 0 ⟨2, 0⟩ ((throttleStep 0 ⟨1, 0⟩ (rlInit 2 1000)).1)).2 = true ∧
    (throttleStep 0 ⟨3, 0⟩
      (throttleStep 0 ⟨2, 0⟩ ((throttleStep 0 ⟨1, 0⟩ (rlInit 2 1000)).1)).1).2 = false ∧
    (completeRequest 500 rlScenario).2 = none ∧
    (completeRequest 500 rlScenario).1.queue = [⟨3, 0⟩] := by
  refine ⟨rfl, rfl, rfl, rfl, rfl⟩

/-- C3 as the code actually behaves: a waiting throttle call is admitted
only at a `completeRequest` event, and then only if the tickets still
inside the window at that moment number fewer than `maxRequests`.  In
the scenario (`maxRequests = 2`, `timeWindow = 1000`, three calls at
`t = 0`), a completion at time `t` admits the waiting third call iff
`t ≥ 1000`, i.e. iff the `t = 0` tickets have aged out by the time the
completion-driven drain runs; an earlier completion admits nothing, and
age-out alone never triggers admission. -/
theorem rateLimiter_queue_drain_on_completion (t : Int) :
    (t < 1000 →
      (completeRequest t rlScenario).2 = none ∧
      (completeRequest t rlScenario).1.queue = [⟨3, 0⟩]) ∧
    (1000 ≤ t →
      (completeRequest t rlScenario).2 = some ⟨3, 0⟩ ∧
      (completeRequest t rlScenario).1.queue = [] ∧
      (completeRequest t rlScenario).1.requestTimestamps = [t]) := by
  have hq : rlScenario.queue = [⟨3, 0⟩] := rfl
  have hts : rlScenario.requestTimestamps = [0, 0] := rfl
  have hmax : rlScenario.maxRequests = 2 := rfl
  have hwin : rlScenario.timeWindow = 1000 := rfl
  constructor
  · intro hlt
    have hfil : List.filter (fun ts => decide (t - 1000 < ts)) [0, 0] = [(0 : Int), 0] := by
      have h1 : t - 1000 < (0 : Int) := by omega
      simp [List.filter_cons, h1]
    unfold completeRequest processQueueStep cleanOldTimestamps
    simp only [hq, hts, hmax, hwin]
    simp [hfil]
  · intro hge
    have hfil : List.filter (fun ts => decide (t - 1000 < ts)) [0, 0] = ([] : List Int) := by
      have h1 : ¬ (t - 1000 < (0 : Int)) := by omega
      simp [List.filter_cons, h1]
    unfold completeRequest processQueueStep cleanOldTimestamps
    simp only [hq, hts, hmax, hwin]
    simp [hfil, recordRequest]

/-- Witness for the amended C3 at `t = 500` (not admitted) and
`t = 1200` (admitted). -/
theorem rateLimiter_queue_drain_on_completion_witness :
    ((completeRequest 500 rlScenario).2 = none ∧
      (completeRequest 500 rlScenario).1.queue = [⟨3, 0⟩]) ∧
    ((completeRequest 1200 rlScenario).2 = some ⟨3, 0⟩ ∧
      (completeRequest 1200 rlScenario).1.queue = [] ∧
      (completeRequest 1200 rlScenario).1.requestTimestamps = [1200]) :=
  ⟨(rateLimiter_queue_drain_on_completion 500).1 (by decide),
   (rateLimiter_queue_drain_on_completion 1200).2 (by decide)⟩

/-! ## RetryManager (the `RetryManager` class of src/unnamed/part_001)

An error value as the retry logic observes it: the `name`, the
`aborted` flag set by cancellation, the `status` / `response.status`
codes, and the `timeout` field a TimeoutError carries.  `Option`
models an absent (`undefined`) JavaScript property. -/
structure JsError where
  name : String := "Error"
  aborted : Bool := false
  status : Option Int := none
  responseStatus : Option Int := none
  timeout : Option Int := none
deriving DecidableEq, Repr

structure RetryManager where
  maxRetries : Nat
  initialDelay : ℚ
  maxDelay : ℚ
  backoffMultiplier : ℚ
  retryableErrors : List Int
deriving DecidableEq, Repr

/-- The constructor's `options` object; `none` is an absent property. -/
structure RMOptions where
  maxRetries : Option Nat := none
  initialDelay : Option ℚ := none
  maxDelay : Option ℚ := none
  backoffMultiplier : Option ℚ := none
  retryableErrors : Option (List Int) := none

/-- JavaScript `x || d` for a numeric option: `0` (and absence) falls
back to the default. -/
def orDefaultNat (v : Option Nat) (d : Nat) : Nat :=
  match v with
  | some x => if x = 0 then d else x
  | none => d

/-- JavaScript `x || d` for a rational-valued numeric option. -/
def orDefaultRat (v : Option ℚ) (d : ℚ) : ℚ :=
  match v with
  | some x => if x = 0 then d else x
  | none => d

/-- The `RetryManager` constructor: `options.maxRetries || 3`,
`options.initialDelay || 1000`, `options.maxDelay || 30000`,
`options.backoffMultiplier || 2`,
`options.retryableErrors || [408, 429, 500, 502, 503, 504]`
(an array is always truthy, so only absence falls back). -/
def mkRetryManager (options : RMOptions) : RetryManager :=
  { maxRetries := orDefaultNat options.maxRetries 3
    initialDelay := orDefaultRat options.initialDelay 1000
    maxDelay := orDefaultRat options.maxDelay 30000
    backoffMultiplier := orDefaultRat options.backoffMultiplier 2
    retryableErrors := options.retryableErrors.getD [408, 429, 500, 502, 503, 504] }

/-- `calculateDelay(attemptNumber)` with the `Math.random()` draw made
an explicit parameter `rand ∈ [0, 1)`:
`min(initialDelay * backoffMultiplier^attemptNumber + jitter, maxDelay)`
with `jitter = rand * 0.3 * exponentialDelay`. -/
def RetryManager.calculateDelay (rm : RetryManager) (attemptNumber : Nat) (rand : ℚ) : ℚ :=
  min (rm.initialDelay * rm.backoffMultiplier ^ attemptNumber
        + rand * (3 / 10) * (rm.initialDelay * rm.backoffMultiplier ^ attemptNumber))
    rm.maxDelay

/-- `error.status || error.response?.status`: a present non-zero
`status` wins, otherwise the response's status (if any). -/
def effStatus (e : JsError) : Option Int :=
  match e.status with
  | some s => if s = 0 then e.responseStatus else some s
  | none => e.responseStatus

/-- `isRetryable(error)`: `false` when `error.aborted`, otherwise
whether the carried status code is in `retryableErrors`
(`includes(undefined)` is `false`). -/
def RetryManager.isRetryable (rm : RetryManager) (e : JsError) : Bool :=
  if e.aborted then false
  else
    match effStatus e with
    | some s => rm.retryableErrors.contains s
    | none => false

/-- `executeWithRetry` from loop index `attempt` on, also counting the
invocations of `fn`.  The JS loop exits via `throw error` when the
error is not retryable or `attempt === this.maxRetries`; inside the
loop `attempt ≤ maxRetries` always holds, so the test is written
`maxRetries ≤ attempt`, which agrees with `===` on every reachable
index and makes the recursion structurally decreasing. -/
def retryFrom (rm : RetryManager) (fn : Nat → Except JsError α) (attempt : Nat) :
    Except JsError α × Nat :=
  match fn attempt with
  | Except.ok r => (Except.ok r, 1)
  | Except.error e =>
      if h : rm.isRetryable e = false ∨ rm.maxRetries ≤ attempt then
        (Except.error e, 1)
      else
        let rest := retryFrom rm fn (attempt + 1)
        (rest.1, rest.2 + 1)
termination_by rm.maxRetries - attempt
decreasing_by
  push_neg at h
  omega

/-- `executeWithRetry(fn)`: run the attempt loop from index 0; the
first component is the settled outcome, the second the number of
invocations of `fn`. -/
def executeWithRetry (rm : RetryManager) (fn : Nat → Except JsError α) :
    Except JsError α × Nat :=
  retryFrom rm fn 0

theorem retryFrom_spec (rm : RetryManager) (fn : Nat → Except JsError α) :
    ∀ attempt, attempt ≤ rm.maxRetries →
    ∃ k, attempt ≤ k ∧ k ≤ rm.maxRetries ∧
      (retryFrom rm fn attempt).2 = k + 1 - attempt ∧
      (retryFrom rm fn attempt).1 = fn k ∧
      (∀ j, attempt ≤ j → j < k →
        ∃ e, fn j = Except.error e ∧ rm.isRetryable e = true ∧ j < rm.maxRetries) ∧
      (∀ e, fn k = Except.error e → rm.isRetryable e = false ∨ k = rm.maxRetries) := by
  have H : ∀ n attempt, rm.maxRetries - attempt = n → attempt ≤ rm.maxRetries →
      ∃ k, attempt ≤ k ∧ k ≤ rm.maxRetries ∧
        (retryFrom rm fn attempt).2 = k + 1 - attempt ∧
        (retryFrom rm fn attempt).1 = fn k ∧
        (∀ j, attempt ≤ j → j < k →
          ∃ e, fn j = Except.error e ∧ rm.isRetryable e = true ∧ j < rm.maxRetries) ∧
        (∀ e, fn k = Except.error e → rm.isRetryable e = false ∨ k = rm.maxRetries) := by
    intro n
    induction n with
    | zero =>
        intro attempt hn hle
        have heq : rm.maxRetries ≤ attempt := by omega
        have hcond : ∀ e : JsError, rm.isRetryable e = false ∨ rm.maxRetries ≤ attempt :=
          fun _ => Or.inr heq
        refine ⟨attempt, le_refl _, hle, ?_, ?_, ?_, ?_⟩
        · cases hfn : fn attempt with
          | ok r =>
              have hred : retryFrom rm fn attempt = (Except.ok r, 1) := by
                rw [retryFrom.eq_def, hfn]
              rw [hred]
              show 1 = attempt + 1 - attempt
              omega
          | error e =>
              have hred : retryFrom rm fn attempt = (Except.error e, 1) := by
                rw [retryFrom.eq_def, hfn]
                exact dif_pos (hcond e)
              rw [hred]
              show 1 = attempt + 1 - attempt
              omega
        · cases hfn : fn attempt with
          | ok r =>
              have hred : retryFrom rm fn attempt = (Except.ok r, 1) := by
                rw [retryFrom.eq_def, hfn]
              rw [hred]
          | error e =>
              have hred : retryFrom rm fn attempt = (Except.error e, 1) := by
                rw [retryFrom.eq_def, hfn]
                exact dif_pos (hcond e)
              rw [hred]
        · intro j h1 h2
          omega
        · intro e he
          exact Or.inr (by omega)
    | succ n ih =>
        intro attempt hn hle
        cases hfn : fn attempt with
        | ok r =>
            have hred : retryFrom rm fn attempt = (Except.ok r, 1) := by
              rw [retryFrom.eq_def, hfn]
            refine ⟨attempt, le_refl _, hle, ?_, ?_, ?_, ?_⟩
            · rw [hred]
              show 1 = attempt + 1 - attempt
              omega
            · rw [hred, hfn]
            · intro j h1 h2
              omega
            · intro e he
              rw [hfn] at he
              cases he
        | error e =>
            by_cases hcond : rm.isRetryable e = false ∨ rm.maxRetries ≤ attempt
            · have hred : retryFrom rm fn attempt = (Except.error e, 1) := by
                rw [retryFrom.eq_def, hfn]
                exact dif_pos hcond
              refine ⟨attempt, le_refl _, hle, ?_, ?_, ?_, ?_⟩
              · rw [hred]
                show 1 = attempt + 1 - attempt
                omega
              · rw [hred, hfn]
              · intro j h1 h2
                omega
              · intro e2 he2
                rw [hfn] at he2
                cases he2
                rcases hcond with h | h
                · exact Or.inl h
                · exact Or.inr (le_antisymm hle h)
            · have hcond2 := hcond
              push_neg at hcond2
              have hretry : rm.isRetryable e = true := by
                cases hb : rm.isRetryable e
                · exact absurd hb hcond2.1
                · rfl
              have hlt : attempt < rm.maxRetries := hcond2.2
              have hred : retryFrom rm fn attempt
                  = ((retryFrom rm fn (attempt + 1)).1,
                     (retryFrom rm fn (attempt + 1)).2 + 1) := by
                rw [retryFrom.eq_def, hfn]
                exact dif_neg hcond
              obtain ⟨k, hk1, hk2, hk3, hk4, hk5, hk6⟩ :=
                ih (attempt + 1) (by omega) (by omega)
              refine ⟨k, by omega, hk2, ?_, ?_, ?_, hk6⟩
              · rw [hred]
                show (retryFrom rm fn (attempt + 1)).2 + 1 = k + 1 - attempt
                rw [hk3]
                omega
              · rw [hred]
                exact hk4
              · intro j h1 h2
                rcases Nat.eq_or_lt_of_le h1 with rfl | h1'
                · exact ⟨e, hfn, hretry, hlt⟩
                · exact hk5 j (by omega) h2
  intro attempt hle
  exact H (rm.maxRetries - attempt) attempt rfl hle

/-- C5: `executeWithRetry` invokes the attempt function at most
`maxRetries + 1` times and settles with exactly one terminal outcome:
the outcome of some attempt `k` — the first success, or the first
non-retryable / final-attempt failure — propagated unchanged, while
every earlier attempt `j < k` failed with a retryable error and is
never surfaced. -/
theorem executeWithRetry_terminal (rm : RetryManager) (fn : Nat → Except JsError α) :
    (executeWithRetry rm fn).2 ≤ rm.maxRetries + 1 ∧
    ∃ k, k ≤ rm.maxRetries ∧
      (executeWithRetry rm fn).2 = k + 1 ∧
      (executeWithRetry rm fn).1 = fn k ∧
      (∀ j, j < k →
        ∃ e, fn j = Except.error e ∧ rm.isRetryable e = true ∧ j < rm.maxRetries) ∧
      (∀ e, fn k = Except.error e → rm.isRetryable e = false ∨ k = rm.maxRetries) := by
  obtain ⟨k, hk1, hk2, hk3, hk4, hk5, hk6⟩ := retryFrom_spec rm fn 0 (Nat.zero_le _)
  refine ⟨?_, k, hk2, by simpa using hk3, hk4, ?_, hk6⟩
  · have : (executeWithRetry rm fn).2 = k + 1 := by simpa using hk3
    omega
  · intro j hj
    exact hk5 j (Nat.zero_le _) hj

/-- Witness for C5: `maxRetries = 2`, retryable set `[500]`, attempts
failing with status 500 twice then succeeding — 3 invocations, the
success surfaced. -/
theorem executeWithRetry_terminal_witness :
    (executeWithRetry
        (mkRetryManager { maxRetries := some 2, retryableErrors := some [500] })
        (fun i => if i < 2 then Except.error { status := some 500 } else Except.ok 42)).1
      = Except.ok 42 ∧
    (executeWithRetry
        (mkRetryManager { maxRetries := some 2, retryableErrors := some [500] })
        (fun i => if i < 2 then Except.error { status := some 500 } else Except.ok 42)).2
      = 3 ∧
    (executeWithRetry
        (mkRetryManager { maxRetries := some 2, retryableErrors := some [500] })
        (fun i => if i < 2 then Except.error { status := some 500 } else Except.ok 42)).2
      ≤ (mkRetryManager { maxRetries := some 2, retryableErrors := some [500] }).maxRetries + 1 := by
  refine ⟨?_, ?_, (executeWithRetry_terminal _ _).1⟩
  · rw [executeWithRetry, retryFrom]
    simp [mkRetryManager, orDefaultNat, RetryManager.isRetryable, effStatus]
    rw [retryFrom]
    simp [RetryManager.isRetryable, effStatus]
    rw [retryFrom]
    simp
  · rw [executeWithRetry, retryFrom]
    simp [mkRetryManager, orDefaultNat, RetryManager.isRetryable, effStatus]
    rw [retryFrom]
    simp [RetryManager.isRetryable, effStatus]
    rw [retryFrom]
    simp

/-- C6: for attempt index `k` and any `Math.random()` draw
`rand ∈ [0, 1]`, `calculateDelay` equals
`min(initialDelay * mult^k + jitter, maxDelay)` with
`jitter = rand * 0.3 * (initialDelay * mult^k)` lying in
`[0, 0.3 * initialDelay * mult^k]`, so the delay lies between
`initialDelay * mult^k` and `1.3 * initialDelay * mult^k`, capped at
`maxDelay`. -/
theorem calculateDelay_bounds (rm : RetryManager) (k : Nat) (rand : ℚ)
    (h0 : 0 ≤ rand) (h1 : rand ≤ 1)
    (hinit : 0 ≤ rm.initialDelay) (hmult : 0 ≤ rm.backoffMultiplier) :
    rm.calculateDelay k rand
        = min (rm.initialDelay * rm.backoffMultiplier ^ k
            + rand * (3 / 10) * (rm.initialDelay * rm.backoffMultiplier ^ k)) rm.maxDelay ∧
    0 ≤ rand * (3 / 10) * (rm.initialDelay * rm.backoffMultiplier ^ k) ∧
    rand * (3 / 10) * (rm.initialDelay * rm.backoffMultiplier ^ k)
        ≤ (3 / 10) * (rm.initialDelay * rm.backoffMultiplier ^ k) ∧
    min (rm.initialDelay * rm.backoffMultiplier ^ k) rm.maxDelay
        ≤ rm.calculateDelay k rand ∧
    rm.calculateDelay k rand
        ≤ min ((13 / 10) * (rm.initialDelay * rm.backoffMultiplier ^ k)) rm.maxDelay := by
  have hexp : 0 ≤ rm.initialDelay * rm.backoffMultiplier ^ k :=
    mul_nonneg hinit (pow_nonneg hmult k)
  have hj0 : 0 ≤ rand * (3 / 10) * (rm.initialDelay * rm.backoffMultiplier ^ k) := by
    apply mul_nonneg
    · apply mul_nonneg h0
      norm_num
    · exact hexp
  have hj1 : rand * (3 / 10) * (rm.initialDelay * rm.backoffMultiplier ^ k)
      ≤ (3 / 10) * (rm.initialDelay * rm.backoffMultiplier ^ k) := by
    nlinarith
  refine ⟨rfl, hj0, hj1, ?_, ?_⟩
  · unfold RetryManager.calculateDelay
    apply min_le_min _ le_rfl
    linarith
  · unfold RetryManager.calculateDelay
    apply min_le_min _ le_rfl
    nlinarith

/-- Witness for C6: `initialDelay = 100`, `mult = 2`, `maxDelay = 30000`,
attempt 1, `rand = 1/2`: delay is `200 + 30 = 230 ∈ [200, 260]`. -/
theorem calculateDelay_bounds_witness :
    (mkRetryManager { initialDelay := some 100, backoffMultiplier := some 2 }).calculateDelay 1 (1 / 2)
      = 230 ∧
    min ((mkRetryManager { initialDelay := some 100, backoffMultiplier := some 2 }).initialDelay
        * (mkRetryManager { initialDelay := some 100, backoffMultiplier := some 2 }).backoffMultiplier ^ 1)
      (mkRetryManager { initialDelay := some 100, backoffMultiplier := some 2 }).maxDelay
      ≤ (mkRetryManager { initialDelay := some 100, backoffMultiplier := some 2 }).calculateDelay 1 (1 / 2) := by
  constructor
  · norm_num [mkRetryManager, RetryManager.calculateDelay, orDefaultRat]
  · exact (calculateDelay_bounds _ 1 (1 / 2) (by norm_num) (by norm_num)
      (by norm_num [mkRetryManager, orDefaultRat]) (by norm_num [mkRetryManager, orDefaultRat])).2.2.2.1

/-- C7: `isRetryable` returns `true` iff the error was not aborted
(`error.aborted` falsy) and its carried status code
(`error.status || error.response?.status`) belongs to the configured
`retryableErrors`, whose constructor default is
`[408, 429, 500, 502, 503, 504]`. -/
theorem isRetryable_iff (rm : RetryManager) (e : JsError) :
    (rm.isRetryable e = true ↔
      e.aborted = false ∧ ∃ s, effStatus e = some s ∧ s ∈ rm.retryableErrors) ∧
    (mkRetryManager {}).retryableErrors = [408, 429, 500, 502, 503, 504] := by
  refine ⟨?_, rfl⟩
  unfold RetryManager.isRetryable
  cases hab : e.aborted with
  | true => simp
  | false =>
      cases hst : effStatus e with
      | none => simp
      | some s =>
          simp only [Bool.false_eq_true, if_false]
          constructor
          · intro hm
            exact ⟨by trivial, s, rfl, List.elem_iff.1 hm⟩
          · rintro ⟨-, s2, hs2, hm2⟩
            cases hs2
            exact List.elem_iff.2 hm2

/-- Witness for C7: a non-aborted error with `status = 500` is
retryable under the default configuration; an aborted one is not. -/
theorem isRetryable_iff_witness :
    (mkRetryManager {}).isRetryable { status := some 500 } = true ∧
    (mkRetryManager {}).isRetryable { status := some 500, aborted := true } = false := by
  constructor
  · exact (isRetryable_iff (mkRetryManager {}) { status := some 500 }).1.mpr
      ⟨rfl, 500, rfl, by decide⟩
  · decide

/-! ## TimeoutController (the `TimeoutController` class of src/unnamed/part_000)

`executeWithTimeout` arms two timers per call: timer A, created by
`createWithTimeout` and registered in `this.activeRequests` (so
`cleanup`/`abort` can `clearTimeout` it), and timer B, created inside
`createTimeoutPromise`, to which no reference is kept.  We track the
set of armed-and-not-yet-fired timers and the `activeRequests`
registry explicitly. -/

inductive Timer where
  | raceTimer (id : Nat)
  | promiseTimer (id : Nat)
deriving DecidableEq, Repr

structure TimerLedger where
  activeTimers : List Timer
  registry : List Nat
deriving DecidableEq, Repr

/-- `createWithTimeout(timeout, id)`: `setTimeout` (arm timer A) and
`this.activeRequests.set(id, {controller, timeoutId, ...})`. -/
def createWithTimeout (id : Nat) (st : TimerLedger) : TimerLedger :=
  { activeTimers := st.activeTimers ++ [Timer.raceTimer id]
    registry := st.registry ++ [id] }

/-- `createTimeoutPromise(ms)`: `setTimeout` inside the promise
executor (arm timer B); the timer id is captured by nothing outside
the closure. -/
def createTimeoutPromise (id : Nat) (st : TimerLedger) : TimerLedger :=
  { st with activeTimers := st.activeTimers ++ [Timer.promiseTimer id] }

/-- `cleanup(requestId)`: if the id is registered, `clearTimeout` its
timer A and delete the registry entry; timer B is untouched. -/
def cleanupReq (id : Nat) (st : TimerLedger) : TimerLedger :=
  if id ∈ st.registry then
    { activeTimers := st.activeTimers.erase (Timer.raceTimer id)
      registry := st.registry.erase id }
  else st

/-- `abort(requestId)`: same ledger effect as `cleanup` (clearTimeout
of timer A, registry delete) plus `controller.abort()`, which touches
no timer. -/
def abortReq (id : Nat) (st : TimerLedger) : TimerLedger :=
  cleanupReq id st

/-- Timer A fires: it leaves the armed set and its callback runs
`controller.abort()` and `this.activeRequests.delete(id)`. -/
def raceTimerFires (id : Nat) (st : TimerLedger) : TimerLedger :=
  { activeTimers := st.activeTimers.erase (Timer.raceTimer id)
    registry := st.registry.erase id }

/-- Timer B fires: it leaves the armed set and rejects the timeout
promise. -/
def promiseTimerFires (id : Nat) (st : TimerLedger) : TimerLedger :=
  { st with activeTimers := st.activeTimers.erase (Timer.promiseTimer id) }

/-- The three settlement paths of one `executeWithTimeout(fetchPromise,
timeout)` call. -/
inductive GuardExit where
  | normal
  | timerExpiry
  | manualAbort
deriving DecidableEq, Repr

/-- One full `executeWithTimeout` call on each exit path:
`createWithTimeout` then `createTimeoutPromise`, then
- normal: the fetch settles first and the `try` branch runs
  `cleanup(id)`;
- timerExpiry: timer A fires (abort + registry delete), timer B fires
  (rejecting the race), and the `catch` branch runs `cleanup(id)`
  (a no-op, the id is gone);
- manualAbort: `abort(id)` clears timer A, the aborted fetch rejects,
  and the `catch` branch runs `cleanup(id)` (a no-op). -/
def executeWithTimeoutTimers (id : Nat) (exit : GuardExit) (st : TimerLedger) : TimerLedger :=
  let st2 := createTimeoutPromise id (createWithTimeout id st)
  match exit with
  | GuardExit.normal => cleanupReq id st2
  | GuardExit.timerExpiry => cleanupReq id (promiseTimerFires id (raceTimerFires id st2))
  | GuardExit.manualAbort => cleanupReq id (abortReq id st2)

/-- C4 fails on the code: after a call settles on the normal-completion
or manual-abort path, the `createTimeoutPromise` timer is still armed —
`executeWithTimeout` clears only the `createWithTimeout` timer.  Only
the timeout-expiry path (where both timers fire) leaves none. -/
theorem executeWithTimeout_leaks_promise_timer :
    (executeWithTimeoutTimers 1 GuardExit.normal ⟨[], []⟩).activeTimers
      = [Timer.promiseTimer 1] ∧
    (executeWithTimeoutTimers 1 GuardExit.manualAbort ⟨[], []⟩).activeTimers
      = [Timer.promiseTimer 1] ∧
    (executeWithTimeoutTimers 1 GuardExit.timerExpiry ⟨[], []⟩).activeTimers = [] ∧
    ¬ (executeWithTimeoutTimers 1 GuardExit.normal ⟨[], []⟩).activeTimers = [] := by
  refine ⟨by decide, by decide, by decide, by decide⟩

/-- The `catch` branch of `executeWithTimeout`: any rejection named
`AbortError` or `TimeoutError` is replaced by a fresh
`Error` with `name = 'TimeoutError'` and `timeout` set to the
configured value; other rejections are rethrown unchanged. -/
def guardMapError (timeoutMs : Int) (e : JsError) : JsError :=
  if e.name = "AbortError" ∨ e.name = "TimeoutError" then
    { name := "TimeoutError", timeout := some timeoutMs }
  else e

/-- Counterexample to C8: a manual abort makes the raced fetch reject
with an `AbortError`, and `executeWithTimeout`'s catch branch converts
it into a `TimeoutError` carrying the configured timeout — the guard
never surfaces an `AbortError`, so the two failure kinds are not
distinguishable at its boundary. -/
theorem guard_converts_abort_to_timeout :
    (guardMapError 50 { name := "AbortError", aborted := true }).name = "TimeoutError" ∧
    ¬ (guardMapError 50 { name := "AbortError", aborted := true }).name = "AbortError" ∧
    guardMapError 50 { name := "AbortError", aborted := true }
      = { name := "TimeoutError", timeout := some 50 } := by
  refine ⟨by decide, by decide, by decide⟩

/-- C8 as the code actually behaves: every rejection named
`AbortError` or `TimeoutError` — the guard's own timer and manual
aborts alike — surfaces as a `TimeoutError{timeout}` carrying the
configured timeout value; any other rejection passes through
unchanged.  The synthesized `TimeoutError` carries no `status`, so
`isRetryable` classifies it as non-retryable under every
configuration. -/
theorem guard_error_taxonomy (timeoutMs : Int) (e : JsError) (rm : RetryManager) :
    ((e.name = "AbortError" ∨ e.name = "TimeoutError") →
      guardMapError timeoutMs e = { name := "TimeoutError", timeout := some timeoutMs }) ∧
    (¬ (e.name = "AbortError" ∨ e.name = "TimeoutError") → guardMapError timeoutMs e = e) ∧
    rm.isRetryable { name := "TimeoutError", timeout := some timeoutMs } = false := by
  refine ⟨?_, ?_, ?_⟩
  · intro h
    exact if_pos h
  · intro h
    exact if_neg h
  · rfl

/-- Witness for the amended C8: at `timeout = 50`, an `AbortError` and
a `TimeoutError` both map to `TimeoutError{50}`, an `Error` passes
through, and the synthesized error is not retryable by default. -/
theorem guard_error_taxonomy_witness :
    guardMapError 50 { name := "TimeoutError" }
      = { name := "TimeoutError", timeout := some 50 } ∧
    guardMapError 50 { name := "Error", status := some 500 }
      = { name := "Error", status := some 500 } ∧
    (mkRetryManager {}).isRetryable { name := "TimeoutError", timeout := some 50 } = false :=
  ⟨(guard_error_taxonomy 50 { name := "TimeoutError" } (mkRetryManager {})).1 (Or.inr rfl),
   (guard_error_taxonomy 50 { name := "Error", status := some 500 } (mkRetryManager {})).2.1
     (by decide),
   (guard_error_taxonomy 50 { name := "Error" } (mkRetryManager {})).2.2⟩

/-! ## ApiWrapper metrics (src/ApiWrapper.js)

The `this.metrics` object; `averageResponseTime` stores
`Math.round(sum / length)`, modelled as `⌊x + 1/2⌋`. -/

structure Metrics where
  totalRequests : Nat
  successfulRequests : Nat
  failedRequests : Nat
  retriedRequests : Nat
  averageResponseTime : Int
  responseTimes : List ℚ
deriving DecidableEq, Repr

/-- The constructor's metrics object: all counters zero. -/
def initialMetrics : Metrics :=
  { totalRequests := 0, successfulRequests := 0, failedRequests := 0
    retriedRequests := 0, averageResponseTime := 0, responseTimes := [] }

/-- `Math.round(x)` = `⌊x + 0.5⌋`. -/
def jsRound (x : ℚ) : Int := ⌊x + 1 / 2⌋

/-- `updateMetrics(responseTime, success)`: push the latency, `shift`
if the window exceeds 100 entries, recompute the rolling average, and
bump the success or failure counter. -/
def updateMetrics (m : Metrics) (responseTime : ℚ) (success : Bool) : Metrics :=
  let times1 := m.responseTimes ++ [responseTime]
  let times2 := if 100 < times1.length then times1.tail else times1
  { m with
    responseTimes := times2
    averageResponseTime := jsRound ((times2.foldl (· + ·) 0) / times2.length)
    successfulRequests := if success then m.successfulRequests + 1 else m.successfulRequests
    failedRequests := if success then m.failedRequests else m.failedRequests + 1 }

/-- The mutation `request()` performs up front (line 69,
`this.metrics.totalRequests++`), before the request is enqueued and
long before it settles. -/
def requestStart (m : Metrics) : Metrics :=
  { m with totalRequests := m.totalRequests + 1 }

/-- Counterexample to C9: `request()` increments `totalRequests` at
call time — after the start-phase of a single request that has not yet
settled, the metrics already differ from their previous value, so the
totals counter is not "mutated only after a request fully settles". -/
theorem metrics_mutated_before_settlement :
    (requestStart initialMetrics).totalRequests = 1 ∧
    initialMetrics.totalRequests = 0 ∧
    ¬ requestStart initialMetrics = initialMetrics := by
  refine ⟨rfl, rfl, by decide⟩

/-- C9 as the code actually behaves: `totalRequests` is incremented
when `request()` is issued, while the request is still pending; the
success/failure counters, the latency window and the rolling average
are mutated only by `updateMetrics`, which runs once at terminal
settlement; `updateMetrics` leaves `totalRequests` untouched; and the
latency window never holds more than the last 100 samples. -/
theorem metrics_update_discipline (m : Metrics) (rt : ℚ) (b : Bool)
    (hlen : m.responseTimes.length ≤ 100) :
    (requestStart m).totalRequests = m.totalRequests + 1 ∧
    (requestStart m).successfulRequests = m.successfulRequests ∧
    (requestStart m).failedRequests = m.failedRequests ∧
    (requestStart m).responseTimes = m.responseTimes ∧
    (requestStart m).averageResponseTime = m.averageResponseTime ∧
    (updateMetrics m rt b).totalRequests = m.totalRequests ∧
    (updateMetrics m rt b).responseTimes.length ≤ 100 ∧
    (b = true → (updateMetrics m rt b).successfulRequests = m.successfulRequests + 1 ∧
      (updateMetrics m rt b).failedRequests = m.failedRequests) ∧
    (b = false → (updateMetrics m rt b).successfulRequests = m.successfulRequests ∧
      (updateMetrics m rt b).failedRequests = m.failedRequests + 1) := by
  refine ⟨rfl, rfl, rfl, rfl, rfl, rfl, ?_, ?_, ?_⟩
  · unfold updateMetrics
    by_cases hc : 100 < (m.responseTimes ++ [rt]).length
    · simp only [if_pos hc, List.length_tail]
      simp only [List.length_append, List.length_singleton] at hc ⊢
      omega
    · simp only [if_neg hc]
      simp only [List.length_append, List.length_singleton] at hc ⊢
      omega
  · intro hb
    subst hb
    exact ⟨rfl, rfl⟩
  · intro hb
    subst hb
    exact ⟨rfl, rfl⟩

/-- Witness for the amended C9: one pending request bumps only
`totalRequests`; its successful settlement at latency 120 bumps only
the success counter and the window. -/
theorem metrics_update_discipline_witness :
    (requestStart initialMetrics).totalRequests = 1 ∧
    (requestStart initialMetrics).successfulRequests = 0 ∧
    (updateMetrics initialMetrics 120 true).totalRequests = 0 ∧
    (updateMetrics initialMetrics 120 true).responseTimes.length ≤ 100 ∧
    (updateMetrics initialMetrics 120 true).successfulRequests = 1 := by
  have h := metrics_update_discipline initialMetrics 120 true (by decide)
  exact ⟨h.1, h.2.1.trans rfl, h.2.2.2.2.2.1, h.2.2.2.2.2.2.1, (h.2.2.2.2.2.2.2.1 rfl).1⟩
